import Mathlib

/- Shallow embedding of the linkedin-referral-assistant pipeline
   (src/linkedin_messages.py, src/analyze_referrals.py).

   Strings are modelled as `List Char` (Python `str` over ASCII inputs); Python
   `str.lower` is modelled by an explicit ASCII case table, regular-expression
   searches by explicit greedy scanners (equivalent to the backtracking search
   for the concrete patterns involved, which contain no anchors or lookaround),
   JSON values by the inductive `JVal`, parsed JSON objects by association
   lists, and the external collaborators (file system, HTTP downloads, the
   hosted extraction model) by oracle functions supplied as inputs. -/

/- ### ASCII string helpers -/

/- Python `\s` over ASCII: space, tab, newline, carriage return, vertical tab,
   form feed. -/
def isSpaceCh (c : Char) : Bool :=
  c = ' ' || c = '\t' || c = '\n' || c = '\r' || c = '\x0b' || c = '\x0c'

/- ASCII upper-to-lower case table. -/
def ucl : List (Char × Char) :=
  [('A', 'a'), ('B', 'b'), ('C', 'c'), ('D', 'd'), ('E', 'e'), ('F', 'f'),
   ('G', 'g'), ('H', 'h'), ('I', 'i'), ('J', 'j'), ('K', 'k'), ('L', 'l'),
   ('M', 'm'), ('N', 'n'), ('O', 'o'), ('P', 'p'), ('Q', 'q'), ('R', 'r'),
   ('S', 's'), ('T', 't'), ('U', 'u'), ('V', 'v'), ('W', 'w'), ('X', 'x'),
   ('Y', 'y'), ('Z', 'z')]

def lowerAsciiChar (c : Char) : Char := (ucl.lookup c).getD c

/- Python `str.lower()` (ASCII fragment). -/
def lower (l : List Char) : List Char := l.map lowerAsciiChar

/- Python `str.replace(a, b)` for single-character `a`, `b` (the only uses in
   the source are `'_' -> ' '`, `' ' -> '_'` and `',' -> ';'`). -/
def replaceChar (a b : Char) (l : List Char) : List Char :=
  l.map (fun c => if c = a then b else c)

/- Substring test, Python `pat in hay`. -/
def containsTok (hay pat : List Char) : Bool :=
  hay.tails.any (fun t => pat.isPrefixOf t)

/- Consume an exact literal from the front of `l`; returns the remainder. -/
def eatLit : List Char → List Char → Option (List Char)
  | [], l => some l
  | _ :: _, [] => none
  | p :: ps, c :: cs => if c = p then eatLit ps cs else none

/- Case-insensitive variant (`re.IGNORECASE` literal); the pattern is given in
   lowercase. -/
def eatLitCI : List Char → List Char → Option (List Char)
  | [], l => some l
  | _ :: _, [] => none
  | p :: ps, c :: cs => if lowerAsciiChar c = p then eatLitCI ps cs else none

/- Python `str.split()` with no argument: split on whitespace runs, dropping
   empty pieces. -/
def wordsAux : List Char → List Char → List (List Char)
  | [], acc => if acc.isEmpty then [] else [acc.reverse]
  | c :: t, acc =>
    if isSpaceCh c then
      (if acc.isEmpty then wordsAux t [] else acc.reverse :: wordsAux t [])
    else wordsAux t (c :: acc)

def tokensWs (l : List Char) : List (List Char) := wordsAux l []

/- Everything before the first occurrence of `pat` (the whole list when `pat`
   does not occur): Python `s.split(pat)[0]` for nonempty `pat`. -/
def beforeFirst (pat : List Char) : List Char → List Char
  | [] => []
  | c :: t => if pat.isPrefixOf (c :: t) then [] else c :: beforeFirst pat t

/- `os.path.splitext(b)[0]`: strip the extension after the last dot, ignoring
   any leading dots of the name. -/
def splitextRoot (b : List Char) : List Char :=
  let rest := b.dropWhile (fun c => c = '.')
  if rest.contains '.' then ((b.reverse.dropWhile (fun c => c ≠ '.')).drop 1).reverse
  else b

/- Decimal rendering of a natural number, for filename ordinals. -/
def natToChars (n : Nat) : List Char := (toString n).toList

/- ### Message classifier: linkedin_messages.is_referral_request -/

def jobLit : List Char := ("job").toList

def idLit : List Char := ("id").toList

def isAsciiLower (c : Char) : Bool := 'a' ≤ c && c ≤ 'z'

/- The optional `[:#]?` element of the classifier pattern. -/
def colonHashSkip (l : List Char) : List Char :=
  match l with
  | [] => []
  | c :: t => if c = ':' || c = '#' then t else c :: t

/- Greedy match of `job\s*id\s*[:#]?\s*([a-z]\d+)` at the head of `l` (the
   input is already lowercased, so the IGNORECASE flag is immaterial, and for
   this pattern greedy matching of each element is equivalent to the
   backtracking search). -/
def matchJobIdAt (l : List Char) : Bool :=
  match eatLit jobLit l with
  | none => false
  | some r1 =>
    match eatLit idLit (r1.dropWhile isSpaceCh) with
    | none => false
    | some r3 =>
      match (colonHashSkip (r3.dropWhile isSpaceCh)).dropWhile isSpaceCh with
      | c :: d :: _ => isAsciiLower c && d.isDigit
      | _ => false

/- `re.search` of the job-id pattern: does it match at any position? -/
def hasJobId (l : List Char) : Bool := l.tails.any matchJobIdAt

/- The keyword list of linkedin_messages.is_referral_request, verbatim
   (note the mixed-case entry "LinkedIn job"). -/
def referral_keywords : List (List Char) :=
  [("referral").toList, ("refer me").toList, ("referring").toList,
   ("job application").toList, ("applying").toList, ("opportunity").toList,
   ("position").toList, ("role").toList, ("job posting").toList,
   ("job opening").toList, ("recommend me").toList, ("recommendation").toList,
   ("looking for a job").toList, ("job search").toList, ("openings").toList,
   ("hiring").toList, ("job opportunity").toList, ("internal referral").toList,
   ("company referral").toList, ("forwarding my resume").toList,
   ("forwarding my cv").toList, ("attached resume").toList,
   ("attached cv").toList, ("resume attached").toList, ("cv attached").toList,
   ("apply for").toList, ("job id").toList, ("job reference").toList,
   ("refer").toList, ("would appreciate a referral").toList,
   ("requesting a referral").toList, ("kindly refer").toList,
   ("please refer").toList, ("seeking a referral").toList,
   ("job referral").toList, ("application process").toList,
   ("help with referral").toList, ("refer my profile").toList,
   ("refer my application").toList, ("refer my resume").toList,
   ("LinkedIn job").toList, ("request you to refer").toList,
   ("job consideration").toList, ("open position").toList,
   ("open role").toList, ("open requisition").toList, ("req id").toList,
   ("requisition").toList]

/- linkedin_messages.is_referral_request: `none` models Python `None`;
   empty or `None` input is falsy and returns False; otherwise the message is
   lowercased, the job-id pattern is searched, then each keyword is tested for
   substring presence against the lowercased text. -/
def is_referral_request (m : Option (List Char)) : Bool :=
  match m with
  | none => false
  | some content =>
    if content.isEmpty then false
    else
      let ml := lower content
      if hasJobId ml then true
      else referral_keywords.any (fun k => containsTok ml k)

/- ### Identity resolution: analyze_referrals.process_linkedin_messages -/

/- Candidate key construction: `display_name.replace(' ', '_')` (the same is
   applied to `actual_name` when present). -/
def makeSenderKey (display : List Char) : List Char := replaceChar ' ' '_' display

/- Query-key derivation from a resume filename
   (analyze_referrals.process_linkedin_messages, filename-pattern branch):
   the part before `'_resume'` if present, else before case-sensitively split
   `'_cv'` when the lowercased name contains it, else the basename without its
   extension.  Note the second branch checks case-insensitively but splits
   case-sensitively, exactly as the source does. -/
def deriveSenderName (basename : List Char) : List Char :=
  if containsTok basename (("_resume").toList) then
    beforeFirst (("_resume").toList) basename
  else if containsTok (lower basename) (("_cv").toList) then
    beforeFirst (("_cv").toList) basename
  else splitextRoot basename

/- `name.lower().replace('_', ' ')`, the cleanup used by the matching tiers. -/
def cleanName (s : List Char) : List Char := replaceChar '_' ' ' (lower s)

/- Tokens of the cleaned name (Python `.split()`); used by both tiers. -/
def tokensClean (s : List Char) : List (List Char) := tokensWs (cleanName s)

/- Tier-2 score: |set(sender tokens) ∩ set(key tokens)| /
   max(|set(sender tokens)|, |set(key tokens)|), as an exact rational (Python
   computes correctly-rounded floats of the same small rationals; with the
   token counts arising here the comparisons agree).  The Python code would
   raise on two empty token sets; that degenerate case is not reachable for
   the nonempty names considered. -/
def matchScore (cs ck : List Char) : ℚ :=
  let sp := (tokensWs cs).dedup
  let kp := (tokensWs ck).dedup
  mkRat ((sp.filter (fun t => kp.contains t)).length : Int) (max sp.length kp.length)

/- Tier 2 (partial match): a key qualifies when the cleaned sender name and
   cleaned key contain one another as substrings (either direction); among the
   qualifying keys the first of maximal positive score wins (the source keeps
   the running best and replaces it only on a strictly greater score). -/
def tierContain (sender : List Char) (keys : List (List Char)) : Option (List Char) :=
  let cs := cleanName sender
  (keys.foldl
    (fun (acc : Option (List Char) × ℚ) key =>
      let ck := cleanName key
      if containsTok ck cs || containsTok cs ck then
        let sc := matchScore cs ck
        if acc.2 < sc then (some key, sc) else acc
      else acc)
    (none, 0)).1

/- Tier 3 (name-parts match): counts how many sender tokens occur among the
   key tokens (a list count, as in the source); the first key with a strictly
   maximal positive count wins. -/
def tierParts (sender : List Char) (keys : List (List Char)) : Option (List Char) :=
  let sp := tokensClean sender
  let best := keys.foldl
    (fun (acc : Option (List Char) × Nat) key =>
      let cnt := (sp.filter (fun p => (tokensClean key).contains p)).length
      if acc.2 < cnt then (some key, cnt) else acc)
    (none, 0)
  match best with
  | (some k, c) => if 0 < c then some k else none
  | (none, _) => none

/- The full matching cascade of process_linkedin_messages: direct dictionary
   membership, then the substring tier, then the name-parts tier.  The values
   stored under the keys are nonempty by construction upstream, so a found key
   always supplies message context. -/
def resolveSender (sender : List Char) (keys : List (List Char)) : Option (List Char) :=
  if keys.contains sender then some sender
  else
    match tierContain sender keys with
    | some k => some k
    | none => tierParts sender keys

/- ### Extraction normalizer: analyze_referrals.analyze_resume_with_gpt -/

/- JSON values appearing in parsed collaborator responses. -/
inductive JVal where
  | s (v : List Char)
  | num (v : ℚ)
  | b (v : Bool)
  | null
  deriving DecidableEq

/- Python truthiness of a JSON value (`not result[field]`): the empty string,
   zero, False and None are falsy. -/
def JVal.falsy : JVal → Bool
  | .s v => v.isEmpty
  | .num q => decide (q = 0)
  | .b v => !v
  | .null => true

def notFound : List Char := ("Not found").toList

def errParse : List Char := ("Error parsing API response").toList

def fiveFields : List String :=
  [("name" : String), ("email" : String), ("phone" : String),
   ("years_of_experience" : String), ("job_id" : String)]

def resumeFields : List String :=
  [("name" : String), ("email" : String), ("phone" : String),
   ("years_of_experience" : String)]

/- Characters of the captured group `[A-Za-z0-9-]`. -/
def isIdChar (c : Char) : Bool :=
  ('A' ≤ c && c ≤ 'Z') || ('a' ≤ c && c ≤ 'z') || ('0' ≤ c && c ≤ '9') || c = '-'

/- The `(?:,\s*[A-Za-z0-9-]+)*` continuation of the captured group: returns
   the captured continuation text and the remainder after the whole match.
   Structural recursion on a fuel bound (each loop step consumes at least the
   comma, so fuel `length + 1` can never run out on the recursive path; the
   fuel-zero clause is unreachable from `commaRuns`). -/
def commaRunsAux : Nat → List Char → (List Char × List Char)
  | 0, l => ([], l)
  | _ + 1, [] => ([], [])
  | fuel + 1, c :: t =>
    if c = ',' then
      let run := (t.dropWhile isSpaceCh).takeWhile isIdChar
      if run.isEmpty then ([], c :: t)
      else
        let res := commaRunsAux fuel ((t.dropWhile isSpaceCh).dropWhile isIdChar)
        (c :: (t.takeWhile isSpaceCh ++ run ++ res.1), res.2)
    else ([], c :: t)

def commaRuns (l : List Char) : List Char × List Char := commaRunsAux (l.length + 1) l

/- Greedy match of the job-id fallback pattern
   `(?:Job\s*ID|JobId):\s*([A-Za-z0-9-]+(?:,\s*[A-Za-z0-9-]+)*)` (IGNORECASE)
   at the head of `l`, returning the captured group.  Under IGNORECASE the
   second alternative is subsumed by the first; for this pattern the greedy
   scan is equivalent to the backtracking search. -/
def matchAtJobIdColon (l : List Char) : Option (List Char) :=
  match eatLitCI jobLit l with
  | none => none
  | some r1 =>
    match eatLitCI idLit (r1.dropWhile isSpaceCh) with
    | none => none
    | some r3 =>
      match r3 with
      | ':' :: r4 =>
        let r5 := r4.dropWhile isSpaceCh
        let run := r5.takeWhile isIdChar
        if run.isEmpty then none
        else some (run ++ (commaRuns (r5.dropWhile isIdChar)).1)
      | _ => none

/- The leftmost match of the fallback pattern: `re.findall(...)[0]` when the
   match list is nonempty (the source only ever reads element 0, so the
   leftmost match determines the behaviour). -/
def firstJobIdMatch : List Char → Option (List Char)
  | [] => none
  | c :: t =>
    match matchAtJobIdColon (c :: t) with
    | some g => some g
    | none => firstJobIdMatch t

/- The job-id half of analyze_resume_with_gpt: `job_id` starts at "Not found";
   when message content is truthy, the parsed job-id response supplies
   `job_id_data.get("job_id", "Not found")`; when parsing the job-id response
   raises, the regex fallback takes the first match and replaces commas inside
   it by semicolons; otherwise "Not found" stands. -/
def computeJobId (msg : Option (List Char))
    (jobParse : Option (List (String × JVal))) : JVal :=
  match msg with
  | none => .s notFound
  | some m =>
    if m.isEmpty then .s notFound
    else
      match jobParse with
      | some fields => (fields.lookup ("job_id" : String)).getD (.s notFound)
      | none =>
        match firstJobIdMatch m with
        | some g => .s (replaceChar ',' ';' g)
        | none => .s notFound

/- The required-fields loop: a falsy or absent value becomes "Not found". -/
def normalizeVal (v : JVal) : JVal := if v.falsy then .s notFound else v

/- Assembly of the result dictionary after a successful resume-response parse:
   the four `resume_data.get(...)` fields plus the job id, then the
   required-fields loop over all five. -/
def assembleRow (rd : List (String × JVal)) (jid : JVal) : List (String × JVal) :=
  [(("name" : String), normalizeVal ((rd.lookup ("name" : String)).getD (.s notFound))),
   (("email" : String), normalizeVal ((rd.lookup ("email" : String)).getD (.s notFound))),
   (("phone" : String), normalizeVal ((rd.lookup ("phone" : String)).getD (.s notFound))),
   (("years_of_experience" : String),
      normalizeVal ((rd.lookup ("years_of_experience" : String)).getD (.s notFound))),
   (("job_id" : String), normalizeVal jid)]

/- analyze_resume_with_gpt without the outer exception handler:
   `resumeParse = none` models a json.JSONDecodeError on the resume response,
   taking the error-placeholder branch (which keeps the sender name and any
   already-extracted job id). -/
def analyze_core (sender : List Char) (msg : Option (List Char))
    (jobParse resumeParse : Option (List (String × JVal))) : List (String × JVal) :=
  let jid := computeJobId msg jobParse
  match resumeParse with
  | some rd => assembleRow rd jid
  | none =>
    [(("name" : String), .s sender),
     (("email" : String), .s errParse),
     (("phone" : String), .s errParse),
     (("years_of_experience" : String), .s errParse),
     (("job_id" : String), if jid = .s notFound then .s errParse else jid)]

/- analyze_referrals.analyze_resume_with_gpt including the outer handler:
   `transport = some e` models any exception escaping to the outer `except`
   (API failure, or a resume response parsing to a non-object), whose dict
   literally uses "Error: {str(e)}" for job_id (the source omits the f-prefix
   on that one string). -/
def analyze_resume_with_gpt (sender : List Char) (msg : Option (List Char))
    (jobParse resumeParse : Option (List (String × JVal)))
    (transport : Option (List Char)) : List (String × JVal) :=
  match transport with
  | some e =>
    [(("name" : String), .s sender),
     (("email" : String), .s (("Error: ").toList ++ e)),
     (("phone" : String), .s (("Error: ").toList ++ e)),
     (("years_of_experience" : String), .s (("Error: ").toList ++ e)),
     (("job_id" : String), .s (("Error: \x7bstr(e)\x7d").toList))]
  | none => analyze_core sender msg jobParse resumeParse

/- ### Resume acquisition -/

/- One download call of the acquisition layer: source kind (drive link vs
   LinkedIn attachment), the URL or source path, the target filename in the
   resumes directory, and whether the collaborator call reported success
   (a successful call writes the target file). -/
structure Ev where
  isDrive : Bool
  url : List Char
  fname : List Char
  ok : Bool
  deriving DecidableEq

/- Download collaborators of linkedin_messages (Google-Drive download and
   authenticated attachment download), as success oracles. -/
structure AcqEnv where
  driveOk : List Char → Bool
  attOk : List Char → Bool

/- Filename for the i-th Google-Drive link of a conversation
   (extract_message_content): the first link gets `<key>_resume.pdf`, later
   links get `<key>_resume_<i+1>.pdf`. -/
def driveFilename (key : List Char) (i : Nat) : List Char :=
  if i = 0 then key ++ ("_resume.pdf").toList
  else key ++ ("_resume_").toList ++ natToChars (i + 1) ++ (".pdf").toList

/- Filename used for every attachment download (extract_message_content):
   always the unsuffixed `<key>_resume.pdf`; the subsequent
   `endswith('.pdf')` guard in the source never fires. -/
def attachName (key : List Char) : List Char := key ++ ("_resume.pdf").toList

/- A scraped attachment inside one message item: the `/dms/` download link
   when present, and the `download` attribute. -/
structure ScrapedAttachment where
  url : Option (List Char)
  nameAttr : Option (List Char)
  deriving DecidableEq

/- `download_link.get_attribute('download') or "resume.pdf"`. -/
def defaultedName (a : ScrapedAttachment) : List Char :=
  match a.nameAttr with
  | some n => if n.isEmpty then ("resume.pdf").toList else n
  | none => ("resume.pdf").toList

def resume_name_keywords : List (List Char) :=
  [("resume").toList, ("cv").toList, ("curriculum").toList, ("vitae").toList]

def isLikelyResume (name : List Char) : Bool :=
  resume_name_keywords.any (fun k => containsTok (lower name) k)

/- Download events produced while scanning one message item's attachments
   (extract_message_content inner loop): only attachments with a `/dms/` link
   whose name looks like a resume or ends in `.pdf` are downloaded, each to
   the constant `attachName`. -/
def itemEvents (env : AcqEnv) (key : List Char) (atts : List ScrapedAttachment) : List Ev :=
  atts.filterMap (fun a =>
    match a.url with
    | some u =>
      if isLikelyResume (defaultedName a) || (".pdf").toList.isSuffixOf (lower (defaultedName a)) then
        some ⟨false, u, attachName key, env.attOk u⟩
      else none
    | none => none)

/- The per-item attachment loop with its `attachments_processed` flag: items
   are skipped once some earlier item had a successful download. -/
def attachLoop (env : AcqEnv) (key : List Char) :
    List (List ScrapedAttachment) → Bool → List Ev
  | [], _ => []
  | item :: rest, processed =>
    if processed then attachLoop env key rest processed
    else
      let evs := itemEvents env key item
      evs ++ attachLoop env key rest (evs.any (fun e => e.ok))

/- The drive-link loop of extract_message_content: when the conversation is a
   referral and links exist, EVERY link is downloaded in order (no early
   stop), the i-th to `driveFilename key i`. -/
def driveEvsAux (env : AcqEnv) (key : List Char) : Nat → List (List Char) → List Ev
  | _, [] => []
  | i, l :: rest => ⟨true, l, driveFilename key i, env.driveOk l⟩ :: driveEvsAux env key (i + 1) rest

/- The acquisition behaviour of linkedin_messages.extract_message_content:
   classification from the concatenated content, then the drive-link loop,
   then the attachment loop.  Returns the download-call trace in order. -/
def extract_acquisition (env : AcqEnv) (content : List Char) (key : List Char)
    (driveLinks : List (List Char)) (items : List (List ScrapedAttachment)) : List Ev :=
  let isRef := is_referral_request (some content)
  let driveEvs := if isRef && !driveLinks.isEmpty then driveEvsAux env key 0 driveLinks else []
  let attEvs := if isRef then attachLoop env key items false else []
  driveEvs ++ attEvs

def countDrive (evs : List Ev) : Nat := (evs.filter (fun e => e.isDrive)).length

/- Target paths actually written, in write order (successful calls write their
   file; download_file truncates an existing file unconditionally). -/
def writtenFiles (evs : List Ev) : List (List Char) :=
  (evs.filter (fun e => e.ok)).map (fun e => e.fname)

/- ### analyze_referrals.process_resume (the resume-processing orchestrator) -/

structure PRAttachment where
  saved_path : Option (List Char)
  deriving DecidableEq

/- Collaborators of process_resume: file-system existence, the
   save_attachment_as_resume copy, and download_from_google_drive. -/
structure PREnv where
  fsExists : List Char → Bool
  copyOk : List Char → Bool
  driveOk : List Char → Bool

/- Attachment eligibility in process_resume: a truthy saved path that exists
   and ends (case-insensitively) in `.pdf`. -/
def prEligible (env : PREnv) (p : List Char) : Bool :=
  !p.isEmpty && env.fsExists p && (".pdf").toList.isSuffixOf (lower p)

/- Eligibility plus a successful copy call: the condition under which the
   attachment loop stops with this attachment. -/
def prSucceeds (env : PREnv) (a : PRAttachment) : Bool :=
  match a.saved_path with
  | some p => prEligible env p && env.copyOk p
  | none => false

/- The attachment loop of process_resume: eligible attachments are copied in
   order; the loop breaks at the first successful copy, and a failed copy
   moves on to the next attachment. -/
def prAttachEvents (env : PREnv) (fname : List Char) : List PRAttachment → List Ev
  | [] => []
  | a :: rest =>
    match a.saved_path with
    | none => prAttachEvents env fname rest
    | some p =>
      if prEligible env p then
        (if env.copyOk p then [⟨false, p, fname, true⟩]
         else ⟨false, p, fname, false⟩ :: prAttachEvents env fname rest)
      else prAttachEvents env fname rest

/- The acquisition control flow of analyze_referrals.process_resume:
   attachments first; only when no attachment was saved, and drive links are
   present, is a single Google-Drive call made for the FIRST link. -/
def process_resume_events (env : PREnv) (fname : List Char)
    (atts : Option (List PRAttachment)) (links : Option (List (List Char))) : List Ev :=
  let attEvs := match atts with
    | some l => prAttachEvents env fname l
    | none => []
  let driveEvs :=
    if attEvs.any (fun e => e.ok) then []
    else
      match links with
      | some (l :: _) => [⟨true, l, fname, env.driveOk l⟩]
      | _ => []
  attEvs ++ driveEvs

/- ### Helper lemmas -/

theorem containsTok_iff {hay pat : List Char} : containsTok hay pat = true ↔ pat <:+: hay := by
  unfold containsTok
  rw [List.any_eq_true]
  constructor
  · rintro ⟨t, ht, hp⟩
    rw [List.mem_tails] at ht
    rw [ List.isPrefixOf_iff_prefix] at hp
    exact List.infix_iff_prefix_suffix.mpr ⟨t, hp, ht⟩
  · intro h
    obtain ⟨t, hp, ht⟩ := List.infix_iff_prefix_suffix.mp h
    refine ⟨t, ?_, ?_⟩
    · rw [List.mem_tails]; exact ht
    · rw [ List.isPrefixOf_iff_prefix]; exact hp

theorem infixLower {t u : List Char} (h : t <:+: u) : lower t <:+: lower u := by
  obtain ⟨a, b, rfl⟩ := h
  exact ⟨lower a, lower b, by simp [lower]⟩

theorem eatLit_append (pat l r v : List Char) (h : eatLit pat l = some r) :
    eatLit pat (l ++ v) = some (r ++ v) := by
  induction pat generalizing l with
  | nil => simp [eatLit] at h ⊢; exact h
  | cons p ps ih =>
    cases l with
    | nil => simp [eatLit] at h
    | cons c cs =>
      simp only [eatLit, List.cons_append] at h ⊢
      by_cases hc : c = p
      · rw [if_pos hc] at h ⊢; exact ih cs h
      · rw [if_neg hc] at h; exact absurd h (by simp)

theorem dropWhile_append_ne (p : Char → Bool) (l v : List Char)
    (h : l.dropWhile p ≠ []) : (l ++ v).dropWhile p = l.dropWhile p ++ v := by
  induction l with
  | nil => simp [List.dropWhile] at h
  | cons c cs ih =>
    by_cases hc : p c
    · simp only [List.cons_append, List.dropWhile_cons_of_pos hc] at h ⊢
      exact ih h
    · simp only [List.cons_append, List.dropWhile_cons_of_neg hc]

theorem colonHashSkip_append (l v : List Char) (h : l ≠ []) :
    colonHashSkip (l ++ v) = colonHashSkip l ++ v := by
  cases l with
  | nil => exact absurd rfl h
  | cons c t =>
    simp only [colonHashSkip, List.cons_append]
    by_cases hc : (c = ':' || c = '#') = true
    · rw [if_pos hc, if_pos hc]
    · rw [if_neg hc, if_neg hc, List.cons_append]

theorem matchJobIdAt_append (s v : List Char) (h : matchJobIdAt s = true) :
    matchJobIdAt (s ++ v) = true := by
  unfold matchJobIdAt at h ⊢
  cases h1 : eatLit jobLit s with
  | none => simp only [h1] at h; exact Bool.noConfusion h
  | some r1 =>
    simp only [h1] at h
    rw [eatLit_append _ _ _ _ h1]
    simp only []
    cases h2 : eatLit idLit (r1.dropWhile isSpaceCh) with
    | none => simp only [h2] at h; exact Bool.noConfusion h
    | some r3 =>
      simp only [h2] at h
      have hr1 : r1.dropWhile isSpaceCh ≠ [] := by
        intro hn; rw [hn] at h2; simp [eatLit, idLit] at h2
      rw [dropWhile_append_ne _ _ _ hr1, eatLit_append _ _ _ _ h2]
      simp only []
      cases h3 : (colonHashSkip (r3.dropWhile isSpaceCh)).dropWhile isSpaceCh with
      | nil => simp only [h3] at h; exact Bool.noConfusion h
      | cons c rest =>
        cases rest with
        | nil => simp only [h3] at h; exact Bool.noConfusion h
        | cons d rest2 =>
          simp only [h3] at h
          have ha : r3.dropWhile isSpaceCh ≠ [] := by
            intro hn; rw [hn] at h3; simp [colonHashSkip, List.dropWhile] at h3
          rw [dropWhile_append_ne _ _ _ ha, colonHashSkip_append _ _ ha,
            dropWhile_append_ne _ _ _ (by rw [h3]; simp), h3]
          exact h

theorem hasJobId_mono {s u : List Char} (hsu : s <:+: u) (h : hasJobId s = true) :
    hasJobId u = true := by
  unfold hasJobId at h ⊢
  rw [List.any_eq_true] at h ⊢
  obtain ⟨t, ht, hm⟩ := h
  rw [List.mem_tails] at ht
  obtain ⟨a, b, rfl⟩ := hsu
  obtain ⟨w, rfl⟩ := ht
  refine ⟨t ++ b, ?_, matchJobIdAt_append _ _ hm⟩
  rw [List.mem_tails]
  exact ⟨a ++ w, by simp⟩

theorem lowerAscii_idem (c : Char) : lowerAsciiChar (lowerAsciiChar c) = lowerAsciiChar c := by
  unfold lowerAsciiChar
  cases h : ucl.lookup c with
  | none => simp [h]
  | some d =>
    simp only [h, Option.getD_some]
    have hmem : (c, d) ∈ ucl := by
      obtain ⟨l1, l2, heq, _⟩ := List.lookup_eq_some_iff.mp h
      rw [heq]; simp
    have hall : ∀ p ∈ ucl, ucl.lookup p.2 = none := by decide
    simp [hall (c, d) hmem]

theorem lower_idem (l : List Char) : lower (lower l) = lower l := by
  unfold lower
  rw [List.map_map]
  exact List.map_congr_left (fun c _ => lowerAscii_idem c)

theorem keywords_ne_nil : ∀ k ∈ referral_keywords, k ≠ [] := by decide

/-- C9: the classifier is monotone with respect to the substring order on
message texts: if the classifier accepts `t` and `t` occurs inside `u`, it
accepts `u`; adding text never turns a match into a non-match. -/
theorem C9_classifier_monotone (t u : List Char) (hin : t <:+: u)
    (h : is_referral_request (some t) = true) : is_referral_request (some u) = true := by
  simp only [is_referral_request] at h ⊢
  by_cases ht : t.isEmpty = true
  · rw [if_pos ht] at h; exact Bool.noConfusion h
  · rw [if_neg ht] at h
    have htne : t ≠ [] := by
      intro hn; rw [hn] at ht; exact ht rfl
    have hune : u ≠ [] := hin.ne_nil htne
    have hu : ¬ u.isEmpty = true := by
      intro hn; exact hune (List.isEmpty_iff.mp hn)
    rw [if_neg hu]
    by_cases hju : hasJobId (lower u) = true
    · rw [if_pos hju]
    · rw [if_neg hju]
      by_cases hjt : hasJobId (lower t) = true
      · exact absurd (hasJobId_mono (infixLower hin) hjt) hju
      · rw [if_neg hjt] at h
        rw [List.any_eq_true] at h ⊢
        obtain ⟨k, hk, hck⟩ := h
        refine ⟨k, hk, ?_⟩
        rw [containsTok_iff] at hck ⊢
        exact hck.trans (infixLower hin)

/-- Witness for C9 at a concrete pair of texts. -/
theorem C9_classifier_monotone_witness :
    is_referral_request (some (("kindly refer me for it").toList)) = true :=
  C9_classifier_monotone (("refer").toList) (("kindly refer me for it").toList)
    ⟨("kindly ").toList, (" me for it").toList, by decide⟩ (by decide)

/-- C4 counterexample: the configured keyword "LinkedIn job" occurs verbatim
(hence case-insensitively) in the text "LinkedIn job", yet the classifier
returns false, because the source compares the mixed-case keyword against the
lowercased message; so the claim's universal positive direction fails. -/
theorem C4_counterexample :
    (("LinkedIn job").toList) ∈ referral_keywords ∧
    containsTok (lower (("LinkedIn job").toList)) (lower (("LinkedIn job").toList)) = true ∧
    is_referral_request (some (("LinkedIn job").toList)) = false := by
  refine ⟨by decide, by decide, by decide⟩

/-- C4 (amended): (a) for every keyword that is invariant under lowercasing —
all of them except "LinkedIn job" — case-insensitive substring presence makes
the classifier return true; (b) a text containing no keyword
case-insensitively and not matching the job-id pattern yields false; (c)
undefined (None) and empty input yield false. -/
theorem C4_amended :
    (∀ m k : List Char, k ∈ referral_keywords → lower k = k →
        containsTok (lower m) (lower k) = true →
        is_referral_request (some m) = true) ∧
    (∀ m : List Char,
        (∀ k ∈ referral_keywords, containsTok (lower m) (lower k) = false) →
        hasJobId (lower m) = false →
        is_referral_request (some m) = false) ∧
    is_referral_request none = false ∧
    is_referral_request (some []) = false := by
  refine ⟨?_, ?_, rfl, rfl⟩
  · intro m k hk hlk hck
    rw [hlk] at hck
    have hkne : k ≠ [] := keywords_ne_nil k hk
    have hmne : m ≠ [] := by
      rintro rfl
      rw [containsTok_iff] at hck
      exact hkne (List.eq_nil_of_infix_nil hck)
    simp only [is_referral_request]
    rw [if_neg (by intro hn; exact hmne (List.isEmpty_iff.mp hn))]
    by_cases hj : hasJobId (lower m) = true
    · rw [if_pos hj]
    · rw [if_neg hj]
      exact List.any_eq_true.mpr ⟨k, hk, hck⟩
  · intro m hk hj
    simp only [is_referral_request]
    by_cases hm : m.isEmpty = true
    · rw [if_pos hm]
    · rw [if_neg hm, if_neg (by rw [hj]; exact Bool.noConfusion)]
      rw [List.any_eq_false]
      intro k hkm
      intro hck
      have h1 : k <:+: lower m := containsTok_iff.mp hck
      have h2 : lower k <:+: lower m := by
        have := infixLower h1
        rwa [lower_idem] at this
      exact absurd (containsTok_iff.mpr h2) (by rw [hk k hkm]; exact Bool.noConfusion)

/-- Witness for C4 (amended) at concrete texts. -/
theorem C4_amended_witness :
    is_referral_request (some (("need a job referral now").toList)) = true ∧
    is_referral_request (some (("good morning to you").toList)) = false :=
  ⟨C4_amended.1 (("need a job referral now").toList) (("job referral").toList)
      (by decide) (by decide) (by decide),
   C4_amended.2.1 (("good morning to you").toList) (by decide) (by decide)⟩

/-- C3 counterexample: for the query key "j_smith" (derived from the resume
filename "j_smith_resume.pdf") against the single candidate key built from
"John Smith", the resolver does NOT return unresolved: the name-parts tier
counts the shared token "smith" and resolves to the candidate, so the resume
is processed WITH that conversation's message context. -/
theorem C3_counterexample :
    deriveSenderName (("j_smith_resume.pdf").toList) = ("j_smith").toList ∧
    resolveSender (("j_smith").toList) [makeSenderKey (("John Smith").toList)]
      = some (makeSenderKey (("John Smith").toList)) := by
  refine ⟨by decide, by decide⟩

/-- C3 (amended): on query "j_smith" and candidate "John_Smith", the direct
tier and the substring-containment tier indeed fail, and the first token "j"
is indeed not a token of the candidate (so a first-token-only criterion would
not match); but the name-parts tier counts the common token "smith" and
returns the candidate, so the cascade resolves instead of reporting
unresolved. -/
theorem C3_amended :
    (("j_smith").toList) ∉ [(("John_Smith").toList)] ∧
    tierContain (("j_smith").toList) [(("John_Smith").toList)] = none ∧
    (("j").toList) ∈ tokensClean (("j_smith").toList) ∧
    (("j").toList) ∉ tokensClean (("John_Smith").toList) ∧
    (("smith").toList) ∈ tokensClean (("j_smith").toList) ∧
    (("smith").toList) ∈ tokensClean (("John_Smith").toList) ∧
    tierParts (("j_smith").toList) [(("John_Smith").toList)]
      = some (("John_Smith").toList) ∧
    resolveSender (("j_smith").toList) [(("John_Smith").toList)]
      = some (("John_Smith").toList) := by
  refine ⟨by decide, by decide, by decide, by decide, by decide, by decide, by decide, by decide⟩

theorem normalizeVal_not_empty (v : JVal) :
    normalizeVal v ≠ JVal.s [] ∧ normalizeVal v ≠ JVal.null := by
  unfold normalizeVal
  by_cases h : v.falsy = true
  · rw [if_pos h]
    exact ⟨by decide, by decide⟩
  · rw [if_neg h]
    constructor
    · rintro rfl; exact h rfl
    · rintro rfl; exact h rfl

/-- C2 counterexample: with a resume response that fails to parse and a job-id
response that parsed to an empty-string job id, the assembled row carries the
empty string in its job_id field: the "every value is non-empty" invariant
fails on the parse-failure path (the required-fields loop does not run
there). -/
theorem C2_counterexample :
    (analyze_resume_with_gpt (("John").toList) (some (("hi").toList))
        (some [(("job_id" : String), JVal.s [])]) none none).lookup ("job_id" : String)
      = some (JVal.s []) ∧
    (JVal.s []).falsy = true := by
  refine ⟨by decide, rfl⟩

/-- C2 (amended): every assembled row has exactly the five keys name, email,
phone, years_of_experience, job_id, on every path (successful parse, resume
parse failure, outer exception).  On the successful-parse path every value is
non-empty (never the empty string, never null), and a field that is absent,
empty or null in the parsed responses is replaced by "Not found".  (On the
resume parse-failure path an empty job id from the job-id response survives
into the row, as the counterexample shows.) -/
theorem C2_amended :
    (∀ (sender : List Char) (msg : Option (List Char))
        (jobP resP : Option (List (String × JVal))) (tr : Option (List Char)),
        (analyze_resume_with_gpt sender msg jobP resP tr).map Prod.fst = fiveFields) ∧
    (∀ (sender : List Char) (msg : Option (List Char))
        (jobP : Option (List (String × JVal))) (rd : List (String × JVal)),
        (∀ kv ∈ analyze_resume_with_gpt sender msg jobP (some rd) none,
            kv.2 ≠ JVal.s [] ∧ kv.2 ≠ JVal.null) ∧
        (∀ f ∈ resumeFields,
            (rd.lookup f = none ∨ rd.lookup f = some (JVal.s []) ∨
             rd.lookup f = some JVal.null) →
            (analyze_resume_with_gpt sender msg jobP (some rd) none).lookup f
              = some (JVal.s notFound)) ∧
        ((computeJobId msg jobP = JVal.s [] ∨ computeJobId msg jobP = JVal.null) →
            (analyze_resume_with_gpt sender msg jobP (some rd) none).lookup ("job_id" : String)
              = some (JVal.s notFound))) := by
  constructor
  · intro sender msg jobP resP tr
    cases tr with
    | some e => rfl
    | none => cases resP with
      | some rd => rfl
      | none => rfl
  · intro sender msg jobP rd
    have hrow : analyze_resume_with_gpt sender msg jobP (some rd) none
        = assembleRow rd (computeJobId msg jobP) := rfl
    refine ⟨?_, ?_, ?_⟩
    · intro kv hkv
      rw [hrow] at hkv
      simp only [assembleRow, List.mem_cons, List.not_mem_nil, or_false] at hkv
      rcases hkv with rfl | rfl | rfl | rfl | rfl <;>
        exact normalizeVal_not_empty _
    · intro f hf hval
      rw [hrow]
      simp only [resumeFields, List.mem_cons, List.not_mem_nil, or_false] at hf
      rcases hf with rfl | rfl | rfl | rfl
      · have hl : (assembleRow rd (computeJobId msg jobP)).lookup ("name" : String)
            = some (normalizeVal ((rd.lookup ("name" : String)).getD (JVal.s notFound))) := rfl
        rw [hl]
        rcases hval with h | h | h <;> rw [h] <;> rfl
      · have hl : (assembleRow rd (computeJobId msg jobP)).lookup ("email" : String)
            = some (normalizeVal ((rd.lookup ("email" : String)).getD (JVal.s notFound))) := rfl
        rw [hl]
        rcases hval with h | h | h <;> rw [h] <;> rfl
      · have hl : (assembleRow rd (computeJobId msg jobP)).lookup ("phone" : String)
            = some (normalizeVal ((rd.lookup ("phone" : String)).getD (JVal.s notFound))) := rfl
        rw [hl]
        rcases hval with h | h | h <;> rw [h] <;> rfl
      · have hl : (assembleRow rd (computeJobId msg jobP)).lookup ("years_of_experience" : String)
            = some (normalizeVal ((rd.lookup ("years_of_experience" : String)).getD (JVal.s notFound))) := rfl
        rw [hl]
        rcases hval with h | h | h <;> rw [h] <;> rfl
    · intro hval
      rw [hrow]
      have hl : (assembleRow rd (computeJobId msg jobP)).lookup ("job_id" : String)
          = some (normalizeVal (computeJobId msg jobP)) := rfl
      rw [hl]
      rcases hval with h | h <;> rw [h] <;> rfl

/-- Witness for C2 (amended) with a concrete empty resume response. -/
theorem C2_amended_witness :
    (analyze_resume_with_gpt (("Jo").toList) none none (some []) none).map Prod.fst
      = fiveFields ∧
    (analyze_resume_with_gpt (("Jo").toList) none none (some []) none).lookup ("email" : String)
      = some (JVal.s notFound) :=
  ⟨C2_amended.1 (("Jo").toList) none none (some []) none,
   (C2_amended.2 (("Jo").toList) none none []).2.1 ("email" : String) (by decide)
     (Or.inl rfl)⟩

/-- C5 counterexample: on a resume-response parse failure the name field holds
the sender name ("John_Smith") and the job_id field holds the previously
extracted job id ("J123"); neither is an error placeholder, so "every one of
the five fields holds an error placeholder" fails. -/
theorem C5_counterexample :
    (analyze_resume_with_gpt (("John_Smith").toList) (some (("Job ID: J123").toList))
        (some [(("job_id" : String), JVal.s (("J123").toList))]) none none).lookup
        ("name" : String)
      = some (JVal.s (("John_Smith").toList)) ∧
    (analyze_resume_with_gpt (("John_Smith").toList) (some (("Job ID: J123").toList))
        (some [(("job_id" : String), JVal.s (("J123").toList))]) none none).lookup
        ("job_id" : String)
      = some (JVal.s (("J123").toList)) ∧
    (("John_Smith").toList : List Char) ≠ errParse ∧
    (("J123").toList : List Char) ≠ errParse := by
  refine ⟨by decide, by decide, by decide, by decide⟩

/-- C5 (amended): when the resume response fails to parse, email, phone and
years_of_experience hold the error placeholder "Error parsing API response"
(which differs from "Not found"); name holds the sender name; and job_id
holds the already-extracted job id unless that is "Not found", in which case
it too holds the error placeholder. -/
theorem C5_amended :
    ∀ (sender : List Char) (msg : Option (List Char))
      (jobP : Option (List (String × JVal))),
      (analyze_resume_with_gpt sender msg jobP none none).lookup ("name" : String)
        = some (JVal.s sender) ∧
      (analyze_resume_with_gpt sender msg jobP none none).lookup ("email" : String)
        = some (JVal.s errParse) ∧
      (analyze_resume_with_gpt sender msg jobP none none).lookup ("phone" : String)
        = some (JVal.s errParse) ∧
      (analyze_resume_with_gpt sender msg jobP none none).lookup ("years_of_experience" : String)
        = some (JVal.s errParse) ∧
      (computeJobId msg jobP = JVal.s notFound →
        (analyze_resume_with_gpt sender msg jobP none none).lookup ("job_id" : String)
          = some (JVal.s errParse)) ∧
      (computeJobId msg jobP ≠ JVal.s notFound →
        (analyze_resume_with_gpt sender msg jobP none none).lookup ("job_id" : String)
          = some (computeJobId msg jobP)) ∧
      errParse ≠ notFound := by
  intro sender msg jobP
  have hj : (analyze_resume_with_gpt sender msg jobP none none).lookup ("job_id" : String)
      = some (if computeJobId msg jobP = JVal.s notFound then JVal.s errParse
              else computeJobId msg jobP) := rfl
  refine ⟨rfl, rfl, rfl, rfl, ?_, ?_, by decide⟩
  · intro h; rw [hj, if_pos h]
  · intro h; rw [hj, if_neg h]

/-- Witness for C5 (amended) at a concrete parse-failure input. -/
theorem C5_amended_witness :
    (analyze_resume_with_gpt (("Ann").toList) none none none none).lookup ("job_id" : String)
      = some (JVal.s errParse) :=
  (C5_amended (("Ann").toList) none none).2.2.2.2.1 rfl

/-- C7 counterexample: with two separate "Job ID:" occurrences in the message
and a job-response parse failure, the fallback yields only the first captured
group "A1" (a second match "B2" exists further along), not the
semicolon-join "A1;B2" the claim requires. -/
theorem C7_counterexample :
    computeJobId (some (("See Job ID: A1 thanks. Also Job ID: B2").toList)) none
      = JVal.s (("A1").toList) ∧
    firstJobIdMatch ((" Also Job ID: B2").toList) = some (("B2").toList) ∧
    (("A1").toList : List Char) ≠ ("A1;B2").toList := by
  refine ⟨by decide, by decide, by decide⟩

/-- C7 (amended): on a job-id parse failure with nonempty message text, the
normalizer regex-searches the text for "Job ID"/"JobId" followed by a colon
and an identifier (with optional comma-separated continuation); it uses ONLY
the leftmost match, replacing the commas inside that one captured group by
semicolons; when there is no match at all, job_id is the placeholder
"Not found". -/
theorem C7_amended :
    ∀ m : List Char, m.isEmpty = false →
      (firstJobIdMatch m = none →
          computeJobId (some m) none = JVal.s notFound) ∧
      (∀ g, firstJobIdMatch m = some g →
          computeJobId (some m) none = JVal.s (replaceChar ',' ';' g)) := by
  intro m hm
  constructor
  · intro h; simp [computeJobId, hm, h]
  · intro g h; simp [computeJobId, hm, h]

/-- Witness for C7 (amended): a comma-joined group has its commas replaced by
semicolons, and a message without the pattern falls back to "Not found". -/
theorem C7_amended_witness :
    computeJobId (some (("Job ID: X9,Y7 ok").toList)) none
      = JVal.s (replaceChar ',' ';' (("X9,Y7").toList)) ∧
    computeJobId (some (("no identifier at all").toList)) none = JVal.s notFound :=
  ⟨(C7_amended (("Job ID: X9,Y7 ok").toList) (by decide)).2 (("X9,Y7").toList) (by decide),
   (C7_amended (("no identifier at all").toList) (by decide)).1 (by decide)⟩

theorem quarter_den_dvd (k : ℤ) : ((k : ℚ) / 4).den ∣ 4 := by
  have h := Rat.den_dvd k 4
  rw [Rat.divInt_eq_div] at h
  exact_mod_cast h

/-- C8 counterexample: the collaborator value 3.1 (= mkRat 31 10) is passed
through to the output row unchanged; its denominator is 10, which does not
divide 4, while by `quarter_den_dvd` every integer multiple of 0.25 has
denominator dividing 4 — so a numeric value that is not a multiple of 0.25
(and is not a placeholder string) appears in an output row. -/
theorem C8_counterexample :
    (analyze_resume_with_gpt (("J").toList) none none
        (some [(("years_of_experience" : String), JVal.num (mkRat 31 10))]) none).lookup
        ("years_of_experience" : String)
      = some (JVal.num (mkRat 31 10)) ∧
    (mkRat 31 10).den = 10 ∧
    ¬ (10 : ℕ) ∣ 4 := by
  refine ⟨by decide, by decide, by decide⟩

/-- C8 (amended): the normalizer performs no quarter-multiple validation: a
numeric years_of_experience in an output row is exactly the (nonzero) numeric
value supplied by the successfully parsed resume response, whatever it is;
in every other case the field holds a string. -/
theorem C8_amended :
    ∀ (sender : List Char) (msg : Option (List Char))
      (jobP resP : Option (List (String × JVal))) (tr : Option (List Char)) (q : ℚ),
      (analyze_resume_with_gpt sender msg jobP resP tr).lookup ("years_of_experience" : String)
        = some (JVal.num q) →
      ∃ rd, resP = some rd ∧ tr = none ∧
        rd.lookup ("years_of_experience" : String) = some (JVal.num q) ∧ q ≠ 0 := by
  intro sender msg jobP resP tr q h
  cases tr with
  | some e =>
    have hl : (analyze_resume_with_gpt sender msg jobP resP (some e)).lookup
        ("years_of_experience" : String) = some (JVal.s (("Error: ").toList ++ e)) := rfl
    rw [hl] at h
    exact absurd h (by simp)
  | none =>
    cases resP with
    | none =>
      have hl : (analyze_resume_with_gpt sender msg jobP none none).lookup
          ("years_of_experience" : String) = some (JVal.s errParse) := rfl
      rw [hl] at h
      exact absurd h (by simp)
    | some rd =>
      refine ⟨rd, rfl, rfl, ?_⟩
      have hl : (analyze_resume_with_gpt sender msg jobP (some rd) none).lookup
          ("years_of_experience" : String)
          = some (normalizeVal ((rd.lookup ("years_of_experience" : String)).getD
              (JVal.s notFound))) := rfl
      rw [hl, Option.some.injEq] at h
      unfold normalizeVal at h
      by_cases hf : ((rd.lookup ("years_of_experience" : String)).getD
          (JVal.s notFound)).falsy = true
      · rw [if_pos hf] at h
        exact absurd h (by simp)
      · rw [if_neg hf] at h
        cases hrd : rd.lookup ("years_of_experience" : String) with
        | none =>
          rw [hrd, Option.getD_none] at h
          exact absurd h (by simp)
        | some w =>
          rw [hrd, Option.getD_some] at h hf
          subst h
          refine ⟨rfl, ?_⟩
          intro h0
          apply hf
          rw [h0]
          decide
/-- Witness for C8 (amended): a quarter value 13/4 supplied by the
collaborator is traced back to the response. -/
theorem C8_amended_witness :
    (analyze_resume_with_gpt (("J").toList) none none
        (some [(("years_of_experience" : String), JVal.num (mkRat 13 4))]) none).lookup
        ("years_of_experience" : String) = some (JVal.num (mkRat 13 4)) ∧
    (mkRat 13 4) ≠ 0 := by
  have h := C8_amended (("J").toList) none none
      (some [(("years_of_experience" : String), JVal.num (mkRat 13 4))]) none (mkRat 13 4)
      (by decide)
  obtain ⟨rd, hrd, -, -, hq⟩ := h
  exact ⟨by decide, hq⟩

/-- C10: the required-fields loop replaces every falsy value — empty string,
null, 0 (and 0.0), False — by "Not found", not only absent fields; in
particular a legitimately extracted years_of_experience of 0 produces exactly
the same output as an absent one. -/
theorem C10_falsy_replacement :
    ((JVal.num 0).falsy = true ∧ (JVal.s []).falsy = true ∧ JVal.null.falsy = true ∧
      (JVal.b false).falsy = true) ∧
    (∀ (sender : List Char) (msg : Option (List Char))
        (jobP : Option (List (String × JVal))) (rd : List (String × JVal)) (v : JVal),
        (rd.lookup ("years_of_experience" : String) = some v → v.falsy = true →
          (analyze_resume_with_gpt sender msg jobP (some rd) none).lookup
            ("years_of_experience" : String) = some (JVal.s notFound)) ∧
        (rd.lookup ("years_of_experience" : String) = none →
          (analyze_resume_with_gpt sender msg jobP (some rd) none).lookup
            ("years_of_experience" : String) = some (JVal.s notFound)) ∧
        (rd.lookup ("name" : String) = some v → v.falsy = true →
          (analyze_resume_with_gpt sender msg jobP (some rd) none).lookup
            ("name" : String) = some (JVal.s notFound)) ∧
        (rd.lookup ("email" : String) = some v → v.falsy = true →
          (analyze_resume_with_gpt sender msg jobP (some rd) none).lookup
            ("email" : String) = some (JVal.s notFound)) ∧
        (rd.lookup ("phone" : String) = some v → v.falsy = true →
          (analyze_resume_with_gpt sender msg jobP (some rd) none).lookup
            ("phone" : String) = some (JVal.s notFound)) ∧
        ((computeJobId msg jobP).falsy = true →
          (analyze_resume_with_gpt sender msg jobP (some rd) none).lookup
            ("job_id" : String) = some (JVal.s notFound))) := by
  refine ⟨⟨by decide, rfl, rfl, rfl⟩, ?_⟩
  intro sender msg jobP rd v
  refine ⟨?_, ?_, ?_, ?_, ?_, ?_⟩
  · intro hlk hf
    have hl : (analyze_resume_with_gpt sender msg jobP (some rd) none).lookup
        ("years_of_experience" : String)
        = some (normalizeVal ((rd.lookup ("years_of_experience" : String)).getD
            (JVal.s notFound))) := rfl
    rw [hl, hlk, Option.getD_some]
    unfold normalizeVal
    rw [if_pos hf]
  · intro hlk
    have hl : (analyze_resume_with_gpt sender msg jobP (some rd) none).lookup
        ("years_of_experience" : String)
        = some (normalizeVal ((rd.lookup ("years_of_experience" : String)).getD
            (JVal.s notFound))) := rfl
    rw [hl, hlk]
    rfl
  · intro hlk hf
    have hl : (analyze_resume_with_gpt sender msg jobP (some rd) none).lookup
        ("name" : String)
        = some (normalizeVal ((rd.lookup ("name" : String)).getD (JVal.s notFound))) := rfl
    rw [hl, hlk, Option.getD_some]
    unfold normalizeVal
    rw [if_pos hf]
  · intro hlk hf
    have hl : (analyze_resume_with_gpt sender msg jobP (some rd) none).lookup
        ("email" : String)
        = some (normalizeVal ((rd.lookup ("email" : String)).getD (JVal.s notFound))) := rfl
    rw [hl, hlk, Option.getD_some]
    unfold normalizeVal
    rw [if_pos hf]
  · intro hlk hf
    have hl : (analyze_resume_with_gpt sender msg jobP (some rd) none).lookup
        ("phone" : String)
        = some (normalizeVal ((rd.lookup ("phone" : String)).getD (JVal.s notFound))) := rfl
    rw [hl, hlk, Option.getD_some]
    unfold normalizeVal
    rw [if_pos hf]
  · intro hf
    have hl : (analyze_resume_with_gpt sender msg jobP (some rd) none).lookup
        ("job_id" : String)
        = some (normalizeVal (computeJobId msg jobP)) := rfl
    rw [hl]
    unfold normalizeVal
    rw [if_pos hf]

/-- Witness for C10: a years_of_experience of 0 in the parsed response is
reported as "Not found". -/
theorem C10_falsy_replacement_witness :
    (analyze_resume_with_gpt (("N").toList) none none
        (some [(("years_of_experience" : String), JVal.num 0)]) none).lookup
        ("years_of_experience" : String) = some (JVal.s notFound) :=
  (C10_falsy_replacement.2 (("N").toList) none none
      [(("years_of_experience" : String), JVal.num 0)] (JVal.num 0)).1 rfl (by decide)

theorem driveEvsAux_fnames (env : AcqEnv) (key : List Char) :
    ∀ (links : List (List Char)) (i : Nat),
      (driveEvsAux env key i links).map (fun e => e.fname)
        = (List.range' i links.length).map (driveFilename key) := by
  intro links
  induction links with
  | nil => intro i; rfl
  | cons l rest ih =>
    intro i
    simp only [driveEvsAux, List.map_cons, List.length_cons, List.range'_succ]
    rw [ih (i + 1)]

theorem driveEvsAux_isDrive (env : AcqEnv) (key : List Char) :
    ∀ (links : List (List Char)) (i : Nat) (e : Ev),
      e ∈ driveEvsAux env key i links → e.isDrive = true := by
  intro links
  induction links with
  | nil => intro i e he; exact absurd he (List.not_mem_nil e)
  | cons l rest ih =>
    intro i e he
    rcases List.mem_cons.mp he with rfl | hm
    · rfl
    · exact ih (i + 1) e hm

theorem itemEvents_shape (env : AcqEnv) (key : List Char)
    (atts : List ScrapedAttachment) :
    ∀ e ∈ itemEvents env key atts, e.isDrive = false ∧ e.fname = attachName key := by
  intro e he
  unfold itemEvents at he
  obtain ⟨a, _, hfa⟩ := List.mem_filterMap.mp he
  cases hu : a.url with
  | none => simp only [hu] at hfa; exact Option.noConfusion hfa
  | some u =>
    simp only [hu] at hfa
    by_cases hc : (isLikelyResume (defaultedName a)
        || (".pdf").toList.isSuffixOf (lower (defaultedName a))) = true
    · rw [if_pos hc] at hfa
      obtain rfl := Option.some.inj hfa
      exact ⟨rfl, rfl⟩
    · rw [if_neg hc] at hfa
      exact Option.noConfusion hfa

theorem attachLoop_shape (env : AcqEnv) (key : List Char) :
    ∀ (items : List (List ScrapedAttachment)) (b : Bool) (e : Ev),
      e ∈ attachLoop env key items b →
      e.isDrive = false ∧ e.fname = attachName key := by
  intro items
  induction items with
  | nil => intro b e he; exact absurd he (List.not_mem_nil e)
  | cons item rest ih =>
    intro b e he
    unfold attachLoop at he
    by_cases hb : b = true
    · rw [if_pos hb] at he
      exact ih b e he
    · rw [if_neg hb] at he
      rcases List.mem_append.mp he with hm | hm
      · exact itemEvents_shape env key item e hm
      · exact ih _ e hm

theorem extract_drive_fnames (env : AcqEnv) (content key : List Char)
    (links : List (List Char)) (items : List (List ScrapedAttachment))
    (h : is_referral_request (some content) = true) :
    ((extract_acquisition env content key links items).filter (fun e => e.isDrive)).map
        (fun e => e.fname)
      = (List.range links.length).map (driveFilename key) := by
  unfold extract_acquisition
  rw [h]
  simp only [Bool.true_and, if_true]
  rw [List.filter_append]
  have hattach : (attachLoop env key items false).filter (fun e => e.isDrive) = [] := by
    rw [List.filter_eq_nil_iff]
    intro e he
    rw [(attachLoop_shape env key items false e he).1]
    exact Bool.noConfusion
  rw [hattach, List.append_nil]
  by_cases hl : links.isEmpty = true
  · rw [if_neg (by rw [hl]; intro hx; exact Bool.noConfusion hx)]
    have : links = [] := List.isEmpty_iff.mp hl
    subst this
    rfl
  · have hl' : links.isEmpty = false := by
      cases hb : links.isEmpty
      · rfl
      · exact absurd hb hl
    rw [if_pos (by rw [hl']; rfl)]
    have hself : (driveEvsAux env key 0 links).filter (fun e => e.isDrive)
        = driveEvsAux env key 0 links := by
      rw [List.filter_eq_self]
      intro e he
      exact driveEvsAux_isDrive env key links 0 e he
    rw [hself, driveEvsAux_fnames env key links 0, List.range_eq_range']

theorem extract_attach_fnames (env : AcqEnv) (content key : List Char)
    (links : List (List Char)) (items : List (List ScrapedAttachment)) :
    ∀ e ∈ extract_acquisition env content key links items,
      e.isDrive = false → e.fname = attachName key := by
  intro e he hd
  unfold extract_acquisition at he
  rcases List.mem_append.mp he with hm | hm
  · by_cases hc : (is_referral_request (some content) && !links.isEmpty) = true
    · rw [if_pos hc] at hm
      rw [driveEvsAux_isDrive env key links 0 e hm] at hd
      exact Bool.noConfusion hd
    · rw [if_neg hc] at hm
      exact absurd hm (List.not_mem_nil e)
  · by_cases hc : is_referral_request (some content) = true
    · rw [if_pos hc] at hm
      exact (attachLoop_shape env key items false e hm).2
    · rw [if_neg hc] at hm
      exact absurd hm (List.not_mem_nil e)

theorem prAttach_struct (env : PREnv) (fname : List Char) :
    ∀ atts : List PRAttachment, (∃ a ∈ atts, prSucceeds env a = true) →
      ∃ evs p, prAttachEvents env fname atts = evs ++ [⟨false, p, fname, true⟩] ∧
        ∀ e ∈ evs, e.isDrive = false ∧ e.ok = false := by
  intro atts
  induction atts with
  | nil => rintro ⟨a, ha, -⟩; exact absurd ha (List.not_mem_nil a)
  | cons a rest ih =>
    rintro ⟨a', ha', hs⟩
    rcases List.mem_cons.mp ha' with rfl | hmem
    · unfold prSucceeds at hs
      cases hp : a'.saved_path with
      | none => rw [hp] at hs; exact Bool.noConfusion hs
      | some p =>
        rw [hp, Bool.and_eq_true] at hs
        obtain ⟨he, hc⟩ := hs
        refine ⟨[], p, ?_, by intro e he'; exact absurd he' (List.not_mem_nil e)⟩
        simp [prAttachEvents, hp, he, hc]
    · cases hp : a.saved_path with
      | none =>
        obtain ⟨evs, p, heq, hall⟩ := ih ⟨a', hmem, hs⟩
        exact ⟨evs, p, by simp [prAttachEvents, hp, heq], hall⟩
      | some p0 =>
        by_cases he : prEligible env p0 = true
        · by_cases hc : env.copyOk p0 = true
          · exact ⟨[], p0, by simp [prAttachEvents, hp, he, hc], by simp⟩
          · obtain ⟨evs, p, heq, hall⟩ := ih ⟨a', hmem, hs⟩
            refine ⟨⟨false, p0, fname, false⟩ :: evs, p, ?_, ?_⟩
            · simp [prAttachEvents, hp, he, hc, heq]
            · intro e hme
              rcases List.mem_cons.mp hme with rfl | hme2
              · exact ⟨rfl, rfl⟩
              · exact hall e hme2
        · obtain ⟨evs, p, heq, hall⟩ := ih ⟨a', hmem, hs⟩
          exact ⟨evs, p, by simp [prAttachEvents, hp, he, heq], hall⟩

/-- C1 counterexample: a referral conversation with one eligible attachment
whose download succeeds AND one drive link: in the scraping-path orchestrator
(linkedin_messages.extract_message_content) the drive-link download call
count is 1, not 0 — the drive loop runs first, before and independently of
any attachment processing — refuting the claimed short-circuit for this code
path. -/
theorem C1_counterexample :
    countDrive (extract_acquisition (⟨fun _ => true, fun _ => true⟩ : AcqEnv)
        (("please refer").toList) (("Jane_Doe").toList)
        [("https://drive.google.com/file/d/abc/view").toList]
        [[⟨some (("https://x/dms/doc").toList), some (("Jane_Resume.pdf").toList)⟩]]) = 1 ∧
    ((extract_acquisition (⟨fun _ => true, fun _ => true⟩ : AcqEnv)
        (("please refer").toList) (("Jane_Doe").toList)
        [("https://drive.google.com/file/d/abc/view").toList]
        [[⟨some (("https://x/dms/doc").toList), some (("Jane_Resume.pdf").toList)⟩]]).filter
        (fun e => !e.isDrive && e.ok)).length = 1 ∧
    is_referral_request (some (("please refer").toList)) = true := by
  refine ⟨by decide, by decide, by decide⟩

/-- C1 (amended): in analyze_referrals.process_resume the claimed property
holds — when some attachment is eligible and its copy call succeeds, the
event trace ends at that first success, every earlier attempt is a failed
non-drive attempt, and the drive-download call count is 0.  In the scraping
path (extract_message_content), by contrast, a referral conversation incurs
exactly one drive-download call per drive link, regardless of attachments. -/
theorem C1_amended :
    (∀ (env : PREnv) (fname : List Char) (atts : List PRAttachment)
        (links : Option (List (List Char))),
        (∃ a ∈ atts, prSucceeds env a = true) →
        countDrive (process_resume_events env fname (some atts) links) = 0 ∧
        (∃ p, (process_resume_events env fname (some atts) links).getLast?
            = some ⟨false, p, fname, true⟩) ∧
        (∀ e ∈ (process_resume_events env fname (some atts) links).dropLast,
            e.isDrive = false ∧ e.ok = false)) ∧
    (∀ (env : AcqEnv) (content key : List Char) (links : List (List Char))
        (items : List (List ScrapedAttachment)),
        is_referral_request (some content) = true →
        countDrive (extract_acquisition env content key links items) = links.length) := by
  constructor
  · intro env fname atts links hex
    obtain ⟨evs, p, heq, hall⟩ := prAttach_struct env fname atts hex
    have hev : process_resume_events env fname (some atts) links
        = evs ++ [⟨false, p, fname, true⟩] := by
      unfold process_resume_events
      simp only [heq]
      rw [if_pos (by simp)]
      simp
    refine ⟨?_, ⟨p, ?_⟩, ?_⟩
    · rw [hev]
      unfold countDrive
      rw [List.filter_append]
      have h1 : evs.filter (fun e => e.isDrive) = [] := by
        rw [List.filter_eq_nil_iff]
        intro e he
        rw [(hall e he).1]
        exact Bool.noConfusion
      rw [h1]
      rfl
    · rw [hev, List.getLast?_concat]
    · rw [hev, List.dropLast_concat]
      exact hall
  · intro env content key links items h
    unfold countDrive
    have h2 := congrArg List.length (extract_drive_fnames env content key links items h)
    simpa using h2

/-- Witness for C1 (amended) at concrete inputs for both conjuncts. -/
theorem C1_amended_witness :
    countDrive (process_resume_events (⟨fun _ => true, fun _ => true, fun _ => true⟩ : PREnv)
        (("John_resume.pdf").toList) (some [⟨some (("cv.pdf").toList)⟩])
        (some [("link1").toList])) = 0 ∧
    countDrive (extract_acquisition (⟨fun _ => true, fun _ => true⟩ : AcqEnv)
        (("kindly refer").toList) (("K").toList) [("l1").toList] []) = 1 := by
  constructor
  · exact (C1_amended.1 _ _ _ _ ⟨⟨some (("cv.pdf").toList)⟩, by decide, by decide⟩).1
  · exact C1_amended.2 (⟨fun _ => true, fun _ => true⟩ : AcqEnv)
      (("kindly refer").toList) (("K").toList) [("l1").toList] [] (by decide)

/-- C6 counterexample: with identity key "John_Smith", a referral conversation
with two drive links followed by one eligible attachment (all downloads
succeeding) writes, in order, John_Smith_resume.pdf, John_Smith_resume_2.pdf
and then John_Smith_resume.pdf AGAIN: the attachment path reuses the
unsuffixed name, so the write list has a duplicate and the existing file is
silently overwritten — refuting both the per-ordinal uniqueness and the
no-silent-overwrite parts of the claim. -/
theorem C6_counterexample :
    writtenFiles (extract_acquisition (⟨fun _ => true, fun _ => true⟩ : AcqEnv)
        (("kindly refer").toList) (("John_Smith").toList)
        [("l1").toList, ("l2").toList]
        [[⟨some (("u1").toList), some (("resume.pdf").toList)⟩]])
      = [("John_Smith_resume.pdf").toList, ("John_Smith_resume_2.pdf").toList,
         ("John_Smith_resume.pdf").toList] ∧
    ¬ (writtenFiles (extract_acquisition (⟨fun _ => true, fun _ => true⟩ : AcqEnv)
        (("kindly refer").toList) (("John_Smith").toList)
        [("l1").toList, ("l2").toList]
        [[⟨some (("u1").toList), some (("resume.pdf").toList)⟩]])).Nodup := by
  refine ⟨by decide, by decide⟩

/-- C6 (amended): the ordinal-suffix naming applies only to the drive-link
loop — the i-th drive link of a referral conversation targets
`driveFilename key i` (that is, `<key>_resume.pdf` for the first and
`<key>_resume_<i+1>.pdf` afterwards) — while every attachment download
targets the constant unsuffixed `<key>_resume.pdf`; nothing prevents a later
write to an already-written path (see the counterexample). -/
theorem C6_amended :
    ∀ (env : AcqEnv) (content key : List Char) (links : List (List Char))
      (items : List (List ScrapedAttachment)),
      is_referral_request (some content) = true →
      (((extract_acquisition env content key links items).filter (fun e => e.isDrive)).map
          (fun e => e.fname)
        = (List.range links.length).map (driveFilename key)) ∧
      (∀ e ∈ extract_acquisition env content key links items,
          e.isDrive = false → e.fname = attachName key) := by
  intro env content key links items h
  exact ⟨extract_drive_fnames env content key links items h,
         extract_attach_fnames env content key links items⟩

/-- Witness for C6 (amended) at a concrete referral conversation. -/
theorem C6_amended_witness :
    ((extract_acquisition (⟨fun _ => true, fun _ => true⟩ : AcqEnv) (("kindly refer").toList)
        (("K").toList) [("l1").toList, ("l2").toList] []).filter (fun e => e.isDrive)).map
        (fun e => e.fname)
      = (List.range 2).map (driveFilename (("K").toList)) :=
  (C6_amended (⟨fun _ => true, fun _ => true⟩ : AcqEnv) (("kindly refer").toList)
      (("K").toList) [("l1").toList, ("l2").toList] [] (by decide)).1
